import Mathlib

/-!
Shallow embedding of the olodymyr-knowledge-nexus conversational-memory core:
the zustand store (`createNewSession`, `setCurrentSession`, `deleteSession`,
`addMessage`, `clearMessages`, `addLearningSession`, `updateLearningSession`)
and the chat submission path (`handleSubmit` in `ChatInput`, including the
learning-directive detection and the message list handed to
`getChatCompletion`).

Modelling conventions:
* `new Date()` timestamps are explicit `Nat` parameters (the clock only ever
  moves forward between store mutations in the source's environment).
* `uuidv4()` fresh identifiers are explicit `String` parameters.
* JavaScript string falsiness (`!state.currentSessionId` is true for both
  `null` and `""`) is modelled by matching on the `Option` and then testing
  for the empty string.
* The completion capability (`getChatCompletion`) is awaited inside a
  `try`/`catch`; its outcome is modelled as an `Except Unit String`
  parameter of `handleSubmit`.
-/

inductive Role where
  | user
  | assistant
deriving DecidableEq

/-- A chat `Message` as in `src/types` (the `timestamp : Date` becomes `Nat`). -/
structure Message where
  id : String
  role : Role
  content : String
  timestamp : Nat
deriving DecidableEq

/-- A conversation `Session` as in `src/types`. -/
structure Session where
  id : String
  name : String
  description : String
  messages : List Message
  createdAt : Nat
  updatedAt : Nat
deriving DecidableEq

/-- A `LearningSession` (knowledge artifact) as in `src/types`. -/
structure LearningSession where
  id : String
  name : String
  description : String
  content : String
  source : Option String
  createdAt : Nat
  updatedAt : Nat
deriving DecidableEq

/-- The store state managed by zustand in `lib/store` (only the fields the
claims are about; `isLoading` and `userSettings` never interact with them). -/
structure AppState where
  sessions : List Session
  currentSessionId : Option String
  learningData : List LearningSession
deriving DecidableEq

/-- `createNewSession(name, description)`: appends a fresh empty session and
makes it current. -/
def createNewSession (name description : String) (sid : String) (now : Nat)
    (st : AppState) : AppState :=
  { st with
    sessions := st.sessions ++ [⟨sid, name, description, [], now, now⟩],
    currentSessionId := some sid }

/-- `setCurrentSession(sessionId)`: `set(\x7b currentSessionId: sessionId \x7d)` —
no existence check of any kind in the source. -/
def setCurrentSession (sid : String) (st : AppState) : AppState :=
  { st with currentSessionId := some sid }

/-- `state.sessions.find(s => s.id !== sessionId)?.id || null` from
`deleteSession`.  The `|| null` also collapses an empty-string id to `null`
(JS falsiness), which the model keeps faithfully. -/
def firstOtherId (l : List Session) (sid : String) : Option String :=
  match l.find? (fun s => !(s.id == sid)) with
  | none => none
  | some s => if s.id = "" then none else some s.id

/-- `deleteSession(sessionId)`: filters the session out; if it was current,
the new current is the first other session's id when more than one session
existed before the delete, else `null`. -/
def deleteSession (sid : String) (st : AppState) : AppState :=
  { st with
    sessions := st.sessions.filter (fun s => !(s.id == sid)),
    currentSessionId :=
      if st.currentSessionId = some sid then
        if 1 < st.sessions.length then firstOtherId st.sessions sid else none
      else st.currentSessionId }

/-- The session auto-created by `addMessage` when no session is current:
`name: "Nova conversa"` (Portuguese for "new conversation"),
`description: "Conversa iniciada automaticamente"`, holding just the new
message, prepended to the session list. -/
def newSessionFor (content : String) (role : Role) (sidNew mid : String)
    (now : Nat) : Session :=
  ⟨sidNew, "Nova conversa", "Conversa iniciada automaticamente",
   [⟨mid, role, content, now⟩], now, now⟩

/-- `addMessage(content, role)`: if `!state.currentSessionId` (null or empty
string — JS falsiness), auto-create a default session containing the message
and make it current; otherwise append the message to every session whose id
equals the current id and refresh its `updatedAt`. -/
def addMessage (content : String) (role : Role) (sidNew mid : String)
    (now : Nat) (st : AppState) : AppState :=
  match st.currentSessionId with
  | none =>
    { st with
      sessions := newSessionFor content role sidNew mid now :: st.sessions,
      currentSessionId := some sidNew }
  | some cid =>
    if cid = "" then
      { st with
        sessions := newSessionFor content role sidNew mid now :: st.sessions,
        currentSessionId := some sidNew }
    else
      { st with
        sessions := st.sessions.map (fun s =>
          if s.id = cid then
            { s with messages := s.messages ++ [⟨mid, role, content, now⟩],
                     updatedAt := now }
          else s) }

/-- `clearMessages(sessionId)`: empties the matching session's message list
and refreshes its `updatedAt`. -/
def clearMessages (sid : String) (now : Nat) (st : AppState) : AppState :=
  { st with
    sessions := st.sessions.map (fun s =>
      if s.id = sid then { s with messages := [], updatedAt := now } else s) }

/-- `addLearningSession(name, content, description, source)`: appends one new
artifact with fresh id and timestamps. -/
def addLearningSession (name content description : String)
    (source : Option String) (lid : String) (now : Nat)
    (st : AppState) : AppState :=
  { st with
    learningData := st.learningData ++
      [⟨lid, name, description, content, source, now, now⟩] }

/-- The `Partial<Omit<LearningSession, 'id' | 'createdAt'>>` update record of
`updateLearningSession`.  A caller-supplied `updatedAt` would be overwritten
by the trailing `updatedAt: new Date()` in the source spread, so it is
omitted as observationally irrelevant. -/
structure LearningUpdate where
  name : Option String
  description : Option String
  content : Option String
  source : Option (Option String)
deriving DecidableEq

/-- The spread `\x7b ...session, ...updates, updatedAt: new Date() \x7d`:
provided fields win, `updatedAt` is always refreshed. -/
def applyUpdate (s : LearningSession) (u : LearningUpdate)
    (now : Nat) : LearningSession :=
  { s with
    name := u.name.getD s.name,
    description := u.description.getD s.description,
    content := u.content.getD s.content,
    source := u.source.getD s.source,
    updatedAt := now }

/-- `updateLearningSession(id, updates)`: merges into every artifact whose id
matches; artifacts with other ids (and a completely absent id) are untouched
— the source has no failure path. -/
def updateLearningSession (id : String) (u : LearningUpdate) (now : Nat)
    (st : AppState) : AppState :=
  { st with
    learningData := st.learningData.map (fun x =>
      if x.id = id then applyUpdate x u now else x) }

/-- `sessions.find(s => s.id === sid)` — the session lookup used throughout
the source. -/
def findSession (st : AppState) (sid : String) : Option Session :=
  st.sessions.find? (fun s => s.id == sid)

/-- The session produced by appending one message and refreshing
`updatedAt`, as `addMessage` does to the current session. -/
def appendedSession (s : Session) (m : Message) (now : Nat) : Session :=
  { s with messages := s.messages ++ [m], updatedAt := now }

/-- JavaScript `toLowerCase()` on a string (ASCII case folding; the trigger
phrases the source compares against are plain ASCII). -/
def lowerStr (s : String) : String := String.mk (s.data.map Char.toLower)

/-- Substring containment on character lists, as JS `String.includes`. -/
def listContainsSub (pat : List Char) : List Char → Bool
  | [] => pat.isEmpty
  | c :: rest => pat.isPrefixOf (c :: rest) || listContainsSub pat rest

/-- `s.includes(pat)` for strings. -/
def strIncludes (s pat : String) : Bool := listContainsSub pat.data s.data

/-- The two trigger phrases of the learning directive in `handleSubmit`. -/
def trigA : List Char := "aprenda isso".data

/-- Second trigger phrase alternative of the regex. -/
def trigG : List Char := "guarde isso".data

/-- `userInput.replace(/aprenda isso|guarde isso/i, '')`: remove the leftmost
case-insensitive occurrence of either phrase (alternatives tried in regex
order at each position), leaving everything else — including any separator
punctuation after the phrase — in place. -/
def stripFirstTrigger : List Char → List Char
  | [] => []
  | c :: rest =>
    if trigA.isPrefixOf ((c :: rest).map Char.toLower) then
      (c :: rest).drop trigA.length
    else if trigG.isPrefixOf ((c :: rest).map Char.toLower) then
      (c :: rest).drop trigG.length
    else c :: stripFirstTrigger rest

/-- JS `trim()`: drop leading and trailing whitespace. -/
def trimChars (s : List Char) : List Char :=
  ((s.dropWhile Char.isWhitespace).reverse.dropWhile Char.isWhitespace).reverse

/-- `userInput.toLowerCase().includes('aprenda isso') ||
userInput.toLowerCase().includes('guarde isso')` — the learning-directive
test of `handleSubmit`. -/
def isLearningRequest (userInput : String) : Bool :=
  strIncludes (lowerStr userInput) "aprenda isso" ||
  strIncludes (lowerStr userInput) "guarde isso"

/-- `userInput.replace(/aprenda isso|guarde isso/i, '').trim()` — the
candidate artifact content extracted by `handleSubmit`. -/
def learningContent (userInput : String) : String :=
  String.mk (trimChars (stripFirstTrigger userInput.data))

/-- `` `Aprendizado $\x7bnew Date().toLocaleDateString()\x7d` `` — the
auto-generated artifact name; the locale date string is an opaque parameter. -/
def learningName (dateStr : String) : String := "Aprendizado " ++ dateStr

/-- Fresh identifiers and timestamps consumed by one `handleSubmit` run:
session/message ids for the user turn, the artifact id, the locale date
string, session/message ids for the assistant turn, and the three clock
readings at which the mutations happen. -/
structure SubmitFresh where
  userSid : String
  userMid : String
  learnId : String
  dateStr : String
  asstSid : String
  asstMid : String
  t1 : Nat
  t2 : Nat
  t3 : Nat
deriving DecidableEq

/-- The artifact created by the learning directive for a given input:
content is the stripped-and-trimmed remainder, description is the fixed
"direct command" tag, source is absent. -/
def artifactOf (userInput : String) (f : SubmitFresh) : LearningSession :=
  ⟨f.learnId, learningName f.dateStr, "Conteúdo aprendido por comando direto",
   learningContent userInput, none, f.t2, f.t2⟩

/-- The learning-directive block of `handleSubmit`: when the input contains a
trigger and the stripped-and-trimmed remainder is a non-empty string (JS
truthiness of `content`), create one learning artifact; otherwise do
nothing. -/
def learnStep (userInput : String) (f : SubmitFresh) (st : AppState) : AppState :=
  if isLearningRequest userInput then
    if learningContent userInput ≠ "" then
      addLearningSession (learningName f.dateStr) (learningContent userInput)
        "Conteúdo aprendido por comando direto" none f.learnId f.t2 st
    else st
  else st

/-- `handleSubmit` of `ChatInput` for an already-trimmed non-empty
`userInput`: (1) append the user turn verbatim; (2) run the learning
directive; (3) await the completion capability — on success append its text
as an assistant turn, on failure (the `catch` branch) change nothing
further.  The completion outcome is the `Except` parameter. -/
def handleSubmit (userInput : String) (f : SubmitFresh)
    (completion : Except Unit String) (st : AppState) : AppState :=
  let st2 := learnStep userInput f
    (addMessage userInput Role.user f.userSid f.userMid f.t1 st)
  match completion with
  | Except.ok response =>
    addMessage response Role.assistant f.asstSid f.asstMid f.t3 st2
  | Except.error _ => st2

/-- The message list `handleSubmit` hands to `getChatCompletion`:
`[...currentMessages, \x7b id: 'temp', role: 'user', content: userInput,
timestamp: new Date() \x7d]`, where `currentMessages` is
`sessions.find(s => s.id === currentSessionId)?.messages || []` read from
the render closure — i.e. the state BEFORE the user turn of this submission
was appended. -/
def contextMessages (st : AppState) (userInput : String) (tNow : Nat) :
    List Message :=
  (match st.currentSessionId with
   | none => []
   | some cid =>
     match st.sessions.find? (fun s => s.id == cid) with
     | some s => s.messages
     | none => []) ++ [⟨"temp", Role.user, userInput, tNow⟩]

/-- One element of a sequence of `addMessage` calls: the content and role
submitted, plus the fresh ids and timestamp that call consumes. -/
structure TurnCall where
  content : String
  role : Role
  sidNew : String
  mid : String
  now : Nat
deriving DecidableEq

/-- A sequence of `addMessage` calls applied in order. -/
def applyAppends (calls : List TurnCall) (st : AppState) : AppState :=
  calls.foldl (fun acc c => addMessage c.content c.role c.sidNew c.mid c.now acc) st

/-- A store state with a single current empty session, used to instantiate
the learning-directive theorem. -/
def w1State : AppState := ⟨[⟨"a", "Chat", "", [], 0, 0⟩], some "a", []⟩

/-- Fresh ids and clock readings for one concrete submission. -/
def w1Fresh : SubmitFresh := ⟨"ns", "m1", "L1", "10/10/2025", "as", "m2", 1, 2, 3⟩

/-- A store state holding a session with two prior turns, used against the
context-assembly claim. -/
def c2State : AppState :=
  ⟨[⟨"s1", "Chat", "",
     [⟨"m1", Role.user, "hi", 0⟩, ⟨"m2", Role.assistant, "hello", 1⟩], 0, 1⟩],
   some "s1", []⟩

/-- A store state with one current session holding one turn, used to
instantiate the completion-failure theorem. -/
def w3State : AppState :=
  ⟨[⟨"a", "Chat", "", [⟨"m0", Role.user, "oi", 0⟩], 0, 0⟩], some "a", []⟩

/-- Fresh ids and clock readings for the completion-failure instantiation. -/
def w3Fresh : SubmitFresh := ⟨"ns", "mu", "L", "d", "as", "ma", 4, 5, 6⟩

/-- A store state with two sessions where the first is current, used to
instantiate the delete-current-session theorem. -/
def w4State : AppState :=
  ⟨[⟨"a", "A", "", [], 0, 0⟩, ⟨"b", "B", "", [], 0, 0⟩], some "a", []⟩

/-- Two concrete `addMessage` calls used to instantiate the append-only
theorem. -/
def w5Calls : List TurnCall :=
  [⟨"hi", Role.user, "x1", "m1", 1⟩, ⟨"hello", Role.assistant, "x2", "m2", 2⟩]

/-- A store state with a current empty session for the append-only witness. -/
def w5State : AppState := ⟨[⟨"a", "Chat", "", [], 0, 0⟩], some "a", []⟩

/-- A store state with no current session, used to instantiate the
auto-creation theorem. -/
def w6State : AppState := ⟨[⟨"old", "Old", "", [], 0, 0⟩], none, []⟩

/-- The empty store state. -/
def emptyState : AppState := ⟨[], none, []⟩

/-- A store state holding one learning artifact with id `"k1"`. -/
def c8State : AppState := ⟨[], none, [⟨"k1", "n", "d", "c", none, 0, 0⟩]⟩

/-- A partial update carrying only a new name. -/
def c8Upd : LearningUpdate := ⟨some "novo", none, none, none⟩

/-- A store state with one session holding one turn, `updatedAt = 0`. -/
def w9State : AppState :=
  ⟨[⟨"a", "Chat", "", [⟨"m0", Role.user, "oi", 3⟩], 0, 0⟩], some "a", []⟩

/-- A store state with two sessions where the second is current, used to
instantiate the delete-non-current frame theorem. -/
def w10State : AppState :=
  ⟨[⟨"a", "A", "", [], 0, 0⟩, ⟨"b", "B", "", [⟨"m", Role.user, "x", 1⟩], 0, 1⟩],
   some "b", []⟩

/-- Updating, by a key-preserving function, exactly the elements carrying a
given key commutes with looking the key up. -/
theorem find_map_upd {α : Type} (idf : α → String) (l : List α) (cid : String)
    (f : α → α) (hf : ∀ s, idf (f s) = idf s) :
    (l.map (fun s => if idf s = cid then f s else s)).find?
        (fun s => idf s == cid)
      = (l.find? (fun s => idf s == cid)).map f := by
  induction l with
  | nil => rfl
  | cons a l ih =>
    by_cases h : idf a = cid
    · simp [List.find?_cons, h, hf]
    · simp [List.find?_cons, h, ih]

/-- A filter whose predicate holds on every element is the identity. -/
theorem filter_all_true {α : Type} (p : α → Bool) :
    ∀ l : List α, (∀ x ∈ l, p x = true) → l.filter p = l := by
  intro l h
  induction l with
  | nil => rfl
  | cons a l ih =>
    rw [List.filter_cons_of_pos (h a (by simp))]
    rw [ih (fun x hx => h x (by simp [hx]))]

/-- A map whose function fixes every element is the identity. -/
theorem map_id_of_fix {α : Type} (f : α → α) :
    ∀ l : List α, (∀ x ∈ l, f x = x) → l.map f = l := by
  intro l h
  induction l with
  | nil => rfl
  | cons a l ih =>
    rw [List.map_cons, h a (by simp), ih (fun x hx => h x (by simp [hx]))]

/-- When a non-empty session id is current, `addMessage` is a pure map that
appends the message to the sessions carrying that id. -/
theorem addMessage_current (st : AppState) (cid : String) (content : String)
    (role : Role) (sidNew mid : String) (now : Nat)
    (hcur : st.currentSessionId = some cid) (hne : cid ≠ "") :
    addMessage content role sidNew mid now st
      = { st with sessions := st.sessions.map (fun s =>
            if s.id = cid then
              { s with messages := s.messages ++ [⟨mid, role, content, now⟩],
                       updatedAt := now }
            else s) } := by
  simp [addMessage, hcur, hne]

/-- `addMessage` never touches the learning artifacts. -/
theorem addMessage_learningData (content : String) (role : Role)
    (sidNew mid : String) (now : Nat) (st : AppState) :
    (addMessage content role sidNew mid now st).learningData
      = st.learningData := by
  unfold addMessage
  cases st.currentSessionId with
  | none => rfl
  | some cid => by_cases h : cid = "" <;> simp [h]

/-- `addMessage` with an existing non-empty current id keeps it current. -/
theorem addMessage_keeps_current (st : AppState) (cid : String)
    (content : String) (role : Role) (sidNew mid : String) (now : Nat)
    (hcur : st.currentSessionId = some cid) (hne : cid ≠ "") :
    (addMessage content role sidNew mid now st).currentSessionId = some cid := by
  rw [addMessage_current st cid content role sidNew mid now hcur hne]
  exact hcur

/-- Looking up the current session after `addMessage` sees exactly the old
session with the new message appended and `updatedAt` refreshed. -/
theorem findSession_addMessage (st : AppState) (cid : String) (s : Session)
    (content : String) (role : Role) (sidNew mid : String) (now : Nat)
    (hcur : st.currentSessionId = some cid) (hne : cid ≠ "")
    (hfind : findSession st cid = some s) :
    findSession (addMessage content role sidNew mid now st) cid
      = some { s with messages := s.messages ++ [⟨mid, role, content, now⟩],
                      updatedAt := now } := by
  rw [addMessage_current st cid content role sidNew mid now hcur hne]
  unfold findSession at hfind ⊢
  rw [find_map_upd Session.id st.sessions cid
        (fun s => { s with messages := s.messages ++ [⟨mid, role, content, now⟩],
                           updatedAt := now })
        (fun _ => rfl)]
  rw [hfind]
  rfl

/-- `learnStep` never touches the sessions. -/
theorem learnStep_sessions (userInput : String) (f : SubmitFresh)
    (st : AppState) :
    (learnStep userInput f st).sessions = st.sessions := by
  unfold learnStep
  by_cases h : isLearningRequest userInput <;>
    by_cases h2 : learningContent userInput = "" <;>
      simp [h, h2, addLearningSession]

/-- `learnStep` never changes the current session. -/
theorem learnStep_current (userInput : String) (f : SubmitFresh)
    (st : AppState) :
    (learnStep userInput f st).currentSessionId = st.currentSessionId := by
  unfold learnStep
  by_cases h : isLearningRequest userInput <;>
    by_cases h2 : learningContent userInput = "" <;>
      simp [h, h2, addLearningSession]

/-- When the directive fires with non-empty content, `learnStep` appends
exactly one artifact. -/
theorem learnStep_fires (userInput : String) (f : SubmitFresh) (st : AppState)
    (htrig : isLearningRequest userInput = true)
    (hcontent : learningContent userInput ≠ "") :
    (learnStep userInput f st).learningData
      = st.learningData ++ [artifactOf userInput f] := by
  simp [learnStep, htrig, hcontent, addLearningSession, artifactOf]

/-- When the directive does not fire (no trigger, or empty remainder),
`learnStep` leaves the artifacts unchanged. -/
theorem learnStep_skips (userInput : String) (f : SubmitFresh) (st : AppState)
    (h : isLearningRequest userInput = false ∨ learningContent userInput = "") :
    (learnStep userInput f st).learningData = st.learningData := by
  unfold learnStep
  cases h with
  | inl h => simp [h]
  | inr h => by_cases ht : isLearningRequest userInput <;> simp [ht, h]

/-- Session lookup only reads the session list. -/
theorem findSession_congr (st st' : AppState) (sid : String)
    (h : st'.sessions = st.sessions) :
    findSession st' sid = findSession st sid := by
  unfold findSession
  rw [h]

/-- C2 counterexample: with a configured `short_term_turn_limit` of 2 and the
spec's scenario turns, the candidates handed to the completion capability are
all three turns `["hi", "hello", "how are you"]` — the earlier turn `"hi"` is
included, so they are not exactly the last two turns as the claim states:
the source applies no turn limit at all. -/
theorem C2_counterexample :
    (contextMessages c2State "how are you" 2).map Message.content
        = ["hi", "hello", "how are you"]
    ∧ (contextMessages c2State "how are you" 2).map Message.content
        ≠ ["hello", "how are you"] := by
  decide

/-- C2 (amended): the candidates used to assemble the context sent to the
completion capability are ALL turns of the current session, in chronological
order, followed by a synthesized copy of the incoming user turn; no
`short_term_turn_limit` truncation exists in the code. -/
theorem C2_context_is_all_turns (st : AppState) (cid : String) (s : Session)
    (input : String) (tNow : Nat)
    (hcur : st.currentSessionId = some cid)
    (hfind : findSession st cid = some s) :
    contextMessages st input tNow
      = s.messages ++ [⟨"temp", Role.user, input, tNow⟩] := by
  unfold findSession at hfind
  simp only [contextMessages, hcur]
  rw [hfind]

/-- Witness for the amended C2 theorem at the scenario state. -/
theorem C2_context_witness :
    contextMessages c2State "how are you" 2
      = [⟨"m1", Role.user, "hi", 0⟩, ⟨"m2", Role.assistant, "hello", 1⟩]
          ++ [⟨"temp", Role.user, "how are you", 2⟩] :=
  C2_context_is_all_turns c2State "s1"
    ⟨"s1", "Chat", "",
     [⟨"m1", Role.user, "hi", 0⟩, ⟨"m2", Role.assistant, "hello", 1⟩], 0, 1⟩
    "how are you" 2 rfl (by decide)

/-- C6: `addMessage` with no current session auto-creates the default session
(the source literal "Nova conversa" is Portuguese for "new conversation")
containing exactly the appended turn, makes it current, prepends it to the
session list leaving every existing session untouched, and has no other
effect (the artifacts are unchanged). -/
theorem C6_append_autocreates (st : AppState) (content : String) (role : Role)
    (sidNew mid : String) (now : Nat)
    (hcur : st.currentSessionId = none) :
    (addMessage content role sidNew mid now st).currentSessionId = some sidNew
    ∧ (addMessage content role sidNew mid now st).sessions
        = newSessionFor content role sidNew mid now :: st.sessions
    ∧ (newSessionFor content role sidNew mid now).name = "Nova conversa"
    ∧ (newSessionFor content role sidNew mid now).messages
        = [⟨mid, role, content, now⟩]
    ∧ (addMessage content role sidNew mid now st).learningData
        = st.learningData := by
  refine ⟨?_, ?_, rfl, rfl, ?_⟩ <;> simp [addMessage, hcur]

/-- Witness for the C6 theorem at a concrete state with no current session. -/
theorem C6_witness :
    (addMessage "oi" Role.user "n1" "m1" 5 w6State).currentSessionId = some "n1"
    ∧ (addMessage "oi" Role.user "n1" "m1" 5 w6State).sessions
        = newSessionFor "oi" Role.user "n1" "m1" 5 :: w6State.sessions
    ∧ (newSessionFor "oi" Role.user "n1" "m1" 5).name = "Nova conversa"
    ∧ (newSessionFor "oi" Role.user "n1" "m1" 5).messages
        = [⟨"m1", Role.user, "oi", 5⟩]
    ∧ (addMessage "oi" Role.user "n1" "m1" 5 w6State).learningData
        = w6State.learningData :=
  C6_append_autocreates w6State "oi" Role.user "n1" "m1" 5 rfl

/-- C7 counterexample: `setCurrentSession "ghost"` on a store with no
sessions at all succeeds and installs `"ghost"` as current — a dangling
reference, with no `NotFoundError` anywhere in the source. -/
theorem C7_counterexample :
    (setCurrentSession "ghost" emptyState).sessions = []
    ∧ (setCurrentSession "ghost" emptyState).currentSessionId = some "ghost" :=
  ⟨rfl, rfl⟩

/-- C7 (amended): `setCurrentSession` unconditionally installs the given id
as the current-session reference — when the session exists it becomes
current, and when it does not the reference dangles; nothing else in the
store changes and no error is raised. -/
theorem C7_set_unconditional (st : AppState) (sid : String) :
    (setCurrentSession sid st).currentSessionId = some sid
    ∧ (setCurrentSession sid st).sessions = st.sessions
    ∧ (setCurrentSession sid st).learningData = st.learningData :=
  ⟨rfl, rfl, rfl⟩

/-- C8 counterexample: updating an absent artifact id is a silent no-op —
the whole store state is returned unchanged and no `NotFoundError` exists in
the source. -/
theorem C8_counterexample :
    updateLearningSession "ghost" c8Upd 5 c8State = c8State
    ∧ (∀ l ∈ c8State.learningData, l.id ≠ "ghost") := by
  decide

/-- C8 (amended): `updateLearningSession` merges the provided fields into the
existing artifact and refreshes its `updated_at` when an artifact with the
id exists; when no artifact with the id exists it is a silent no-op (the
store is returned unchanged), not a `NotFoundError`. -/
theorem C8_update_spec (st : AppState) (id : String) (u : LearningUpdate)
    (now : Nat) :
    (∀ l, st.learningData.find? (fun x => x.id == id) = some l →
       (updateLearningSession id u now st).learningData.find?
           (fun x => x.id == id)
         = some (applyUpdate l u now)
       ∧ (applyUpdate l u now).updatedAt = now
       ∧ (applyUpdate l u now).content = u.content.getD l.content)
    ∧ ((∀ x ∈ st.learningData, x.id ≠ id) →
        updateLearningSession id u now st = st) := by
  constructor
  · intro l hl
    refine ⟨?_, rfl, rfl⟩
    unfold updateLearningSession
    simp only
    rw [find_map_upd LearningSession.id st.learningData id
          (fun x => applyUpdate x u now) (fun _ => rfl)]
    rw [hl]
    rfl
  · intro h
    unfold updateLearningSession
    rw [map_id_of_fix _ _ (fun x hx => by simp [h x hx])]

/-- Witness for the C8 theorem at a concrete store: a present id is merged,
refreshing the name and `updatedAt`. -/
theorem C8_witness :
    (updateLearningSession "k1" c8Upd 5 c8State).learningData.find?
        (fun x => x.id == "k1")
      = some (applyUpdate ⟨"k1", "n", "d", "c", none, 0, 0⟩ c8Upd 5)
    ∧ (applyUpdate ⟨"k1", "n", "d", "c", none, 0, 0⟩ c8Upd 5).updatedAt = 5
    ∧ (applyUpdate ⟨"k1", "n", "d", "c", none, 0, 0⟩ c8Upd 5).content
        = c8Upd.content.getD "c" :=
  (C8_update_spec c8State "k1" c8Upd 5).1 ⟨"k1", "n", "d", "c", none, 0, 0⟩
    (by decide)

/-- C9: for any prior state, clearing a session empties its turn list and
strictly increases its `updatedAt` (the fresh clock reading exceeds the old
stamp), and clearing the already-cleared session again yields the same empty
turn list — clear is idempotent on the turns. -/
theorem C9_clear_idempotent (st : AppState) (sid : String) (now now2 : Nat)
    (s : Session)
    (hfind : findSession st sid = some s)
    (hmono : s.updatedAt < now) :
    ∃ s', findSession (clearMessages sid now st) sid = some s'
      ∧ s'.messages = [] ∧ s'.updatedAt = now ∧ s.updatedAt < s'.updatedAt
      ∧ ∃ s'', findSession (clearMessages sid now2 (clearMessages sid now st)) sid
            = some s''
          ∧ s''.messages = [] := by
  have step : ∀ (st' : AppState) (s0 : Session) (n : Nat),
      findSession st' sid = some s0 →
      findSession (clearMessages sid n st') sid
        = some { s0 with messages := [], updatedAt := n } := by
    intro st' s0 n h
    unfold findSession clearMessages at *
    simp only
    rw [find_map_upd Session.id st'.sessions sid
          (fun s => { s with messages := [], updatedAt := n }) (fun _ => rfl)]
    rw [h]
    rfl
  have h1 := step st s now hfind
  have h2 := step _ _ now2 h1
  exact ⟨_, h1, rfl, rfl, hmono, _, h2, rfl⟩

/-- Witness for the C9 theorem at a concrete store with one non-empty
session. -/
theorem C9_witness :
    ∃ s', findSession (clearMessages "a" 1 w9State) "a" = some s'
      ∧ s'.messages = []
      ∧ s'.updatedAt = 1
      ∧ (⟨"a", "Chat", "", [⟨"m0", Role.user, "oi", 3⟩], 0, 0⟩ : Session).updatedAt
          < s'.updatedAt
      ∧ ∃ s'', findSession (clearMessages "a" 2 (clearMessages "a" 1 w9State)) "a"
            = some s''
          ∧ s''.messages = [] :=
  C9_clear_idempotent w9State "a" 1 2
    ⟨"a", "Chat", "", [⟨"m0", Role.user, "oi", 3⟩], 0, 0⟩ (by decide) (by decide)

/-- C10: deleting a session that is not the current one removes exactly that
session — the current-session reference is unchanged, the remaining sessions
keep their order and every field (they are the very same records), and the
artifacts are untouched. -/
theorem C10_delete_noncurrent_frame (st : AppState) (sid : String)
    (l1 l2 : List Session) (s0 : Session)
    (hcur : st.currentSessionId ≠ some sid)
    (hsplit : st.sessions = l1 ++ s0 :: l2)
    (hs : s0.id = sid)
    (hnd : (st.sessions.map Session.id).Nodup) :
    (deleteSession sid st).sessions = l1 ++ l2
    ∧ (deleteSession sid st).currentSessionId = st.currentSessionId
    ∧ (deleteSession sid st).learningData = st.learningData := by
  rw [hsplit, List.map_append, List.map_cons] at hnd
  rw [List.nodup_append] at hnd
  have hx1 : ∀ x ∈ l1, x.id ≠ sid := by
    intro x hx he
    have hmem : x.id ∈ l1.map Session.id := List.mem_map_of_mem Session.id hx
    have hmem2 : x.id ∈ s0.id :: l2.map Session.id := by
      rw [he, ← hs]
      exact List.mem_cons_self _ _
    exact hnd.2.2 hmem hmem2
  have hx2 : ∀ x ∈ l2, x.id ≠ sid := by
    intro x hx he
    have h2 := hnd.2.1
    rw [List.nodup_cons] at h2
    have hmem : x.id ∈ l2.map Session.id := List.mem_map_of_mem Session.id hx
    rw [he, ← hs] at hmem
    exact h2.1 hmem
  refine ⟨?_, ?_, rfl⟩
  · show st.sessions.filter (fun s => !(s.id == sid)) = l1 ++ l2
    rw [hsplit, List.filter_append]
    rw [filter_all_true _ l1 (fun x hx => by simp [hx1 x hx])]
    rw [List.filter_cons_of_neg (by simp [hs])]
    rw [filter_all_true _ l2 (fun x hx => by simp [hx2 x hx])]
  · show (if st.currentSessionId = some sid then _ else st.currentSessionId)
        = st.currentSessionId
    rw [if_neg hcur]

/-- Witness for the C10 theorem: deleting the non-current session `"a"` from
a two-session store keeps `"b"` current and untouched. -/
theorem C10_witness :
    (deleteSession "a" w10State).sessions
        = [] ++ [⟨"b", "B", "", [⟨"m", Role.user, "x", 1⟩], 0, 1⟩]
    ∧ (deleteSession "a" w10State).currentSessionId = w10State.currentSessionId
    ∧ (deleteSession "a" w10State).learningData = w10State.learningData :=
  C10_delete_noncurrent_frame w10State "a" []
    [⟨"b", "B", "", [⟨"m", Role.user, "x", 1⟩], 0, 1⟩]
    ⟨"a", "A", "", [], 0, 0⟩ (by decide) rfl rfl (by decide)

/-- A list of at least two sessions with pairwise-distinct ids contains a
session whose id differs from any given id. -/
theorem exists_other_session (l : List Session) (cid : String)
    (hnd : (l.map Session.id).Nodup) (hlen : 2 ≤ l.length) :
    ∃ x ∈ l, x.id ≠ cid := by
  match l with
  | [] => simp at hlen
  | [a] => simp at hlen
  | a :: b :: rest =>
    rw [List.map_cons, List.map_cons, List.nodup_cons] at hnd
    by_cases h : a.id = cid
    · refine ⟨b, by simp, fun hb => ?_⟩
      exact hnd.1 (by rw [h, ← hb]; exact List.mem_cons_self _ _)
    · exact ⟨a, by simp, h⟩

/-- C4: deleting the current session when at least two sessions exist
installs a different, still-existing session as current; deleting it when it
is the only session leaves no current session — the reference never points
at the deleted session. -/
theorem C4_delete_current_session (st : AppState) (cid : String)
    (hcur : st.currentSessionId = some cid)
    (_hmem : ∃ s ∈ st.sessions, s.id = cid)
    (hnd : (st.sessions.map Session.id).Nodup)
    (hne : ∀ s ∈ st.sessions, s.id ≠ "") :
    (2 ≤ st.sessions.length →
      ∃ cid', (deleteSession cid st).currentSessionId = some cid'
        ∧ cid' ≠ cid
        ∧ ∃ s' ∈ (deleteSession cid st).sessions, s'.id = cid')
    ∧ (st.sessions.length = 1 →
        (deleteSession cid st).currentSessionId = none) := by
  constructor
  · intro hlen
    obtain ⟨x, hx, hxid⟩ := exists_other_session st.sessions cid hnd hlen
    have hfs : (st.sessions.find? (fun s => !(s.id == cid))).isSome := by
      rw [List.find?_isSome]
      exact ⟨x, hx, by simp [hxid]⟩
    obtain ⟨s0, hs0⟩ := Option.isSome_iff_exists.mp hfs
    have hs0p := List.find?_some hs0
    have hs0ne : s0.id ≠ cid := by simpa using hs0p
    have hs0mem : s0 ∈ st.sessions := List.mem_of_find?_eq_some hs0
    have hs0nn : s0.id ≠ "" := hne s0 hs0mem
    refine ⟨s0.id, ?_, hs0ne, s0, ?_, rfl⟩
    · show (if st.currentSessionId = some cid then _ else _) = some s0.id
      rw [if_pos hcur, if_pos (by omega : 1 < st.sessions.length)]
      unfold firstOtherId
      rw [hs0]
      show (if s0.id = "" then none else some s0.id) = some s0.id
      rw [if_neg hs0nn]
    · show s0 ∈ st.sessions.filter (fun s => !(s.id == cid))
      exact List.mem_filter.mpr ⟨hs0mem, by simp [hs0ne]⟩
  · intro hlen
    show (if st.currentSessionId = some cid then _ else _) = none
    rw [if_pos hcur, if_neg (by omega : ¬ 1 < st.sessions.length)]

/-- Witness for the C4 theorem: deleting the current session `"a"` from a
two-session store, and the single-session clause for a one-session store via
its trivially false antecedent being instantiated in the same application. -/
theorem C4_witness :
    (2 ≤ w4State.sessions.length →
      ∃ cid', (deleteSession "a" w4State).currentSessionId = some cid'
        ∧ cid' ≠ "a"
        ∧ ∃ s' ∈ (deleteSession "a" w4State).sessions, s'.id = cid')
    ∧ (w4State.sessions.length = 1 →
        (deleteSession "a" w4State).currentSessionId = none) :=
  C4_delete_current_session w4State "a" rfl
    ⟨⟨"a", "A", "", [], 0, 0⟩, by decide, rfl⟩ (by decide) (by decide)

/-- Folding `addMessage` calls over a state with a fixed non-empty current
session appends exactly the called messages, in call order, to that
session. -/
theorem applyAppends_messages (calls : List TurnCall) (st : AppState)
    (cid : String) (s : Session)
    (hcur : st.currentSessionId = some cid) (hne : cid ≠ "")
    (hfind : findSession st cid = some s) :
    (applyAppends calls st).currentSessionId = some cid
    ∧ ∃ s', findSession (applyAppends calls st) cid = some s'
        ∧ s'.messages = s.messages
            ++ calls.map (fun c => ⟨c.mid, c.role, c.content, c.now⟩) := by
  induction calls generalizing st s with
  | nil => exact ⟨hcur, s, hfind, by simp⟩
  | cons c rest ih =>
    have hcur1 := addMessage_keeps_current st cid c.content c.role c.sidNew
      c.mid c.now hcur hne
    have hfind1 := findSession_addMessage st cid s c.content c.role c.sidNew
      c.mid c.now hcur hne hfind
    obtain ⟨h1, s', h2, h3⟩ := ih _ _ hcur1 hfind1
    refine ⟨h1, s', h2, ?_⟩
    rw [h3]
    simp [List.append_assoc]

/-- C5: any sequence of `addMessage` calls against one (current) session is
append-only: afterwards the session's turn list is the old list followed by
the called turns in call order — so from an empty list its length equals the
call count — and earlier turns are never mutated, removed or reordered. -/
theorem C5_append_only (calls : List TurnCall) (st : AppState) (cid : String)
    (s : Session)
    (hcur : st.currentSessionId = some cid) (hne : cid ≠ "")
    (hfind : findSession st cid = some s) :
    (applyAppends calls st).currentSessionId = some cid
    ∧ ∃ s', findSession (applyAppends calls st) cid = some s'
        ∧ s'.messages = s.messages
            ++ calls.map (fun c => ⟨c.mid, c.role, c.content, c.now⟩)
        ∧ (s.messages = [] → s'.messages.length = calls.length) := by
  obtain ⟨h1, s', h2, h3⟩ := applyAppends_messages calls st cid s hcur hne hfind
  refine ⟨h1, s', h2, h3, fun h0 => ?_⟩
  rw [h3, h0]
  simp

/-- Witness for the C5 theorem: two calls on an initially empty current
session yield exactly those two turns in order. -/
theorem C5_witness :
    (applyAppends w5Calls w5State).currentSessionId = some "a"
    ∧ ∃ s', findSession (applyAppends w5Calls w5State) "a" = some s'
        ∧ s'.messages = (⟨"a", "Chat", "", [], 0, 0⟩ : Session).messages
            ++ w5Calls.map (fun c => ⟨c.mid, c.role, c.content, c.now⟩)
        ∧ ((⟨"a", "Chat", "", [], 0, 0⟩ : Session).messages = [] →
            s'.messages.length = w5Calls.length) :=
  C5_append_only w5Calls w5State "a" ⟨"a", "Chat", "", [], 0, 0⟩ rfl
    (by decide) (by decide)

/-- C1 counterexample: the spec's own example instantiated with the code's
configured trigger (the source trigger `"guarde isso"` glosses the spec's
`"remember this"`): submitting `"guarde isso: the sky is blue"` creates an
artifact whose content is `": the sky is blue"` — the separator colon after
the trigger phrase is kept, so the content is NOT `"the sky is blue"` as the
claim's example requires. -/
theorem C1_counterexample :
    (handleSubmit "guarde isso: the sky is blue" w1Fresh (Except.error ())
        w1State).learningData.map LearningSession.content
      = [": the sky is blue"]
    ∧ ": the sky is blue" ≠ "the sky is blue" := by
  decide

/-- C1 (amended): for a submitted text containing a configured trigger phrase
(`"aprenda isso"` / `"guarde isso"`, case-insensitive) whose remainder after
removing the first trigger occurrence and trimming surrounding whitespace is
non-empty, exactly one knowledge artifact is created, whose content equals
that remainder — with any separator punctuation after the trigger (such as a
colon) retained, since only the trigger phrase itself is removed — and the
triggering user turn is persisted verbatim, trigger included, in the
session. -/
theorem C1_learning_directive (st : AppState) (userInput : String)
    (f : SubmitFresh) (completion : Except Unit String) (cid : String)
    (s : Session)
    (hcur : st.currentSessionId = some cid) (hne : cid ≠ "")
    (hfind : findSession st cid = some s)
    (htrig : isLearningRequest userInput = true)
    (hcontent : learningContent userInput ≠ "") :
    (handleSubmit userInput f completion st).learningData
        = st.learningData ++ [artifactOf userInput f]
    ∧ (artifactOf userInput f).content = learningContent userInput
    ∧ ∃ s' rest,
        findSession (handleSubmit userInput f completion st) cid = some s'
        ∧ s'.messages
            = s.messages ++ ⟨f.userMid, Role.user, userInput, f.t1⟩ :: rest := by
  have hcur1 := addMessage_keeps_current st cid userInput Role.user f.userSid
    f.userMid f.t1 hcur hne
  have hfind1 := findSession_addMessage st cid s userInput Role.user f.userSid
    f.userMid f.t1 hcur hne hfind
  have hld1 := addMessage_learningData userInput Role.user f.userSid f.userMid
    f.t1 st
  have hsess2 := learnStep_sessions userInput f
    (addMessage userInput Role.user f.userSid f.userMid f.t1 st)
  have hcur2 : (learnStep userInput f
      (addMessage userInput Role.user f.userSid f.userMid f.t1 st)).currentSessionId
      = some cid := by
    rw [learnStep_current]
    exact hcur1
  have hfind2 : findSession (learnStep userInput f
      (addMessage userInput Role.user f.userSid f.userMid f.t1 st)) cid
      = some (appendedSession s ⟨f.userMid, Role.user, userInput, f.t1⟩ f.t1) := by
    rw [findSession_congr _ _ cid hsess2]
    exact hfind1
  have hld2 : (learnStep userInput f
      (addMessage userInput Role.user f.userSid f.userMid f.t1 st)).learningData
      = st.learningData ++ [artifactOf userInput f] := by
    rw [learnStep_fires userInput f _ htrig hcontent, hld1]
  cases completion with
  | error e =>
    refine ⟨hld2, rfl, _, [], hfind2, ?_⟩
    simp [appendedSession]
  | ok r =>
    have hdef : handleSubmit userInput f (Except.ok r) st
        = addMessage r Role.assistant f.asstSid f.asstMid f.t3
            (learnStep userInput f
              (addMessage userInput Role.user f.userSid f.userMid f.t1 st)) := rfl
    rw [hdef]
    have hfind3 := findSession_addMessage _ cid _ r Role.assistant f.asstSid
      f.asstMid f.t3 hcur2 hne hfind2
    refine ⟨?_, rfl, _, [⟨f.asstMid, Role.assistant, r, f.t3⟩], hfind3, ?_⟩
    · rw [addMessage_learningData]
      exact hld2
    · simp [appendedSession, List.append_assoc]

/-- Witness for the amended C1 theorem: a concrete triggered submission on a
store with one empty current session. -/
theorem C1_witness :
    (handleSubmit "guarde isso memorize" w1Fresh (Except.ok "certo")
        w1State).learningData
      = ([] : List LearningSession) ++ [artifactOf "guarde isso memorize" w1Fresh]
    ∧ (artifactOf "guarde isso memorize" w1Fresh).content
        = learningContent "guarde isso memorize"
    ∧ ∃ s' rest,
        findSession (handleSubmit "guarde isso memorize" w1Fresh
            (Except.ok "certo") w1State) "a" = some s'
        ∧ s'.messages
            = ([] : List Message)
                ++ ⟨"m1", Role.user, "guarde isso memorize", 1⟩ :: rest :=
  C1_learning_directive w1State "guarde isso memorize" w1Fresh
    (Except.ok "certo") "a" ⟨"a", "Chat", "", [], 0, 0⟩ rfl (by decide)
    (by decide) (by decide) (by decide)

/-- C3: when the completion capability fails after the user turn was
appended, the user turn remains recorded verbatim, no assistant turn is
appended (the session's turn list ends exactly at the user turn), the
current session is unchanged, and the artifact of step 2 — created or
skipped exactly as the directive dictated — is not rolled back. -/
theorem C3_completion_failure (st : AppState) (userInput : String)
    (f : SubmitFresh) (cid : String) (s : Session)
    (hcur : st.currentSessionId = some cid) (hne : cid ≠ "")
    (hfind : findSession st cid = some s) :
    (∃ s', findSession (handleSubmit userInput f (Except.error ()) st) cid
          = some s'
        ∧ s'.messages = s.messages ++ [⟨f.userMid, Role.user, userInput, f.t1⟩])
    ∧ (handleSubmit userInput f (Except.error ()) st).currentSessionId
        = some cid
    ∧ (isLearningRequest userInput = true → learningContent userInput ≠ "" →
        (handleSubmit userInput f (Except.error ()) st).learningData
          = st.learningData ++ [artifactOf userInput f])
    ∧ ((isLearningRequest userInput = false ∨ learningContent userInput = "") →
        (handleSubmit userInput f (Except.error ()) st).learningData
          = st.learningData) := by
  have hdef : handleSubmit userInput f (Except.error ()) st
      = learnStep userInput f
          (addMessage userInput Role.user f.userSid f.userMid f.t1 st) := rfl
  rw [hdef]
  have hcur1 := addMessage_keeps_current st cid userInput Role.user f.userSid
    f.userMid f.t1 hcur hne
  have hfind1 := findSession_addMessage st cid s userInput Role.user f.userSid
    f.userMid f.t1 hcur hne hfind
  have hld1 := addMessage_learningData userInput Role.user f.userSid f.userMid
    f.t1 st
  refine ⟨⟨appendedSession s ⟨f.userMid, Role.user, userInput, f.t1⟩ f.t1,
      ?_, rfl⟩, ?_, ?_, ?_⟩
  · rw [findSession_congr _ _ cid (learnStep_sessions _ _ _)]
    exact hfind1
  · rw [learnStep_current]
    exact hcur1
  · intro h1 h2
    rw [learnStep_fires _ _ _ h1 h2, hld1]
  · intro h
    rw [learnStep_skips _ _ _ h, hld1]

/-- Witness for the C3 theorem: a concrete non-triggering submission whose
completion fails, on a store with one current session holding one prior
turn. -/
theorem C3_witness :
    (∃ s', findSession (handleSubmit "como vai" w3Fresh (Except.error ())
            w3State) "a" = some s'
        ∧ s'.messages = [⟨"m0", Role.user, "oi", 0⟩]
            ++ [⟨"mu", Role.user, "como vai", 4⟩])
    ∧ (handleSubmit "como vai" w3Fresh (Except.error ())
          w3State).currentSessionId = some "a"
    ∧ (isLearningRequest "como vai" = true → learningContent "como vai" ≠ "" →
        (handleSubmit "como vai" w3Fresh (Except.error ()) w3State).learningData
          = w3State.learningData ++ [artifactOf "como vai" w3Fresh])
    ∧ ((isLearningRequest "como vai" = false ∨ learningContent "como vai" = "") →
        (handleSubmit "como vai" w3Fresh (Except.error ()) w3State).learningData
          = w3State.learningData) :=
  C3_completion_failure w3State "como vai" w3Fresh "a"
    ⟨"a", "Chat", "", [⟨"m0", Role.user, "oi", 0⟩], 0, 0⟩ rfl (by decide)
    (by decide)
